import Mathlib

/-
Verification of `cnvlib/export.py` (CNVkit export module).

Shallow embedding notes:
  * The module targets Python 2 (`from __future__ import ...`, `Bio._py3k`
    compatibility shims), so the builtin `round` rounds half away from zero;
    `int(round(x))` is modelled by `pyround` (on `ℚ`) and `pyroundR` (on `ℝ`).
  * Python floats are modelled exactly: by `ℚ` where only ring arithmetic
    occurs, and by `ℝ` for the THetA encoder, whose formula uses `2 ** x`.
  * Fallible operations (`int(...)`, `float(...)`, dict lookup, assertions)
    are modelled with `Option` / `Except`.
  * `pyround` is written with integer arithmetic on `num`/`den` so that it
    evaluates by kernel reduction; `pyround_eq` restates it as the usual
    floor/ceil formula for round-half-away-from-zero.
-/

set_option maxRecDepth 4000

set_option linter.unusedVariables false

/-- Python 2 `round` on an exact rational: round to nearest, ties away from
zero.  `int(round x)` is exactly this value, since `round` already returns an
integral float.  Both branches divide a non-negative integer by a positive
one, so integer division below is plain floor division. -/
def pyround (q : ℚ) : ℤ :=
  if 0 ≤ q.num then (2 * q.num + (q.den : ℤ)) / (2 * (q.den : ℤ))
  else -((2 * (-q.num) + (q.den : ℤ)) / (2 * (q.den : ℤ)))

/-- Python 2 `round` on a real number (used for the THetA encoder, whose
formula involves `2 ** log2`): round to nearest, ties away from zero. -/
noncomputable def pyroundR (x : ℝ) : ℤ :=
  if 0 ≤ x then ⌊x + 1 / 2⌋ else ⌈x - 1 / 2⌉

/-- One copy-number segment row: the fields of a `CopyNumArray` record that
`export.py` reads (`chromosome`, `start`, `end`, `probes`, `log2`). -/
structure SegRow where
  chromosome : String
  start : ℤ
  end_ : ℤ
  probes : ℕ
  log2 : ℚ

deriving instance DecidableEq for SegRow

/-- `ncopies = int(round(abs_val))`: the integer copy number computed from a
resolved absolute copy-number value, as in `segments2bed` and `segments2vcf`. -/
def ncopies_of (abs_val : ℚ) : ℤ := pyround abs_val

/-- One record yielded by `segments2vcf`:
`(chromosome, max(1, start), svtype, info, formats, genotype)`. -/
structure VcfRecord where
  chromosome : String
  pos : ℤ
  svtype : String
  info : String
  formats : String
  genotype : String

deriving instance DecidableEq for VcfRecord

/-- The INFO string `"IMPRECISE;SVTYPE=%s;END=%d;SVLEN=%d"` of `segments2vcf`. -/
def vcf_info (svtype : String) (endv svlen : ℤ) : String :=
  "IMPRECISE;SVTYPE=" ++ svtype ++ ";END=" ++ toString endv ++
    ";SVLEN=" ++ toString svlen

/-- Body of the `segments2vcf` loop for one `(row, abs_val)` pair:
`none` models `continue` (neutral copy number is skipped). -/
def vcfRecordOf (ploidy : ℤ) (pair : SegRow × ℚ) : Option VcfRecord :=
  let row := pair.1
  let ncopies := ncopies_of pair.2
  if ncopies = ploidy then
    none
  else if ploidy < ncopies then
    some { chromosome := row.chromosome
           pos := max 1 row.start
           svtype := "DUP"
           info := vcf_info "DUP" row.end_ (row.end_ - row.start)
           formats := "GT:GQ:CN:CNQ"
           genotype := "0/1:0:" ++ toString ncopies ++ ":" ++ toString row.probes }
  else
    some { chromosome := row.chromosome
           pos := max 1 row.start
           svtype := "DEL"
           info := vcf_info "DEL" row.end_ (-(row.end_ - row.start))
           formats := "GT:GQ"
           genotype := (if ncopies = 0 then "1/1" else "0/1") ++ ":" ++
             toString row.probes }

/-- `segments2vcf(segments, ploidy, is_reference_male)`.  The external
absolute copy-number resolver (`call.absolute_pure`) is out of scope; its
returned sequence is the `absolutes` argument, consumed by `zip` as in the
source. -/
def segments2vcf (segments : List SegRow) (absolutes : List ℚ) (ploidy : ℤ) :
    List VcfRecord :=
  (segments.zip absolutes).filterMap (vcfRecordOf ploidy)

/-- `segments2bed(segments, label, ploidy, is_reference_male, show_neutral)`;
as above, `absolutes` stands for the external resolver's output. -/
def segments2bed (segments : List SegRow) (absolutes : List ℚ) (label : String)
    (ploidy : ℤ) (show_neutral : Bool) : List (String × ℤ × ℤ × String × ℤ) :=
  (segments.zip absolutes).filterMap (fun pair =>
    let ncopies := ncopies_of pair.2
    if show_neutral = true ∨ ncopies ≠ ploidy then
      some (pair.1.chromosome, pair.1.start, pair.1.end_, label, ncopies)
    else
      none)

/-- `logratio2count` (nested in `calculate_theta_fields`): a segment's
synthetic read count from its log2 ratio and probe count.
`read_depth = 2 ** log2_ratio * expect_depth(=100)`,
`segment_size = 1000 * seg["probes"]`,
`read_count = segment_size * read_depth / read_length(=100)`,
returned as `int(round(read_count))`.  Floats are modelled as reals. -/
noncomputable def logratio2count (probes : ℕ) (log2v : ℝ) : ℤ :=
  let expect_depth : ℝ := 100
  let read_length : ℝ := 100
  let segment_size : ℝ := 1000 * (probes : ℝ)
  let read_depth : ℝ := (2 : ℝ) ^ log2v * expect_depth
  let read_count : ℝ := segment_size * read_depth / read_length
  pyroundR read_count

deriving instance DecidableEq for Except

/-- `ProbeInfo = namedtuple('ProbeInfo', 'label chrom start end gene')`. -/
structure ProbeInfo where
  label : String
  chrom : String
  start : ℤ
  end_ : ℤ
  gene : String

deriving instance DecidableEq for ProbeInfo

/-- Digit-string to number; `none` if empty or a non-digit appears. -/
def digitsToNat : List Char → ℕ → Option ℕ
  | [], acc => some acc
  | c :: cs, acc =>
    if c.isDigit then digitsToNat cs (acc * 10 + (c.toNat - 48)) else none

/-- Parse a non-empty run of decimal digits. -/
def parseDigits (cs : List Char) : Option ℕ :=
  if cs.isEmpty then none else digitsToNat cs 0

/-- Model of Python `int(s)` on the strings that occur in coverage tables:
an optional minus sign followed by decimal digits; anything else fails
(`ValueError`). -/
def int_of_string (s : String) : Option ℤ :=
  match s.data with
  | '-' :: cs => (parseDigits cs).map (fun n => -(n : ℤ))
  | cs => (parseDigits cs).map (fun n => (n : ℤ))

/-- Decimal part of `float`: digits, optionally split by one point
(`"1.5"`, `"1."`, `".5"`, `"2"`); value is exact. -/
def float_of_chars (cs : List Char) : Option ℚ :=
  let ip := cs.takeWhile (fun c => c ≠ '.')
  match cs.dropWhile (fun c => c ≠ '.') with
  | [] => (parseDigits ip).map (fun n => (n : ℚ))
  | _ :: fp =>
    if ip.isEmpty && fp.isEmpty then none
    else
      match (if ip.isEmpty then some 0 else parseDigits ip),
            (if fp.isEmpty then some 0 else parseDigits fp) with
      | some i, some f => some (mkRat ((i : ℤ) * 10 ^ fp.length + (f : ℤ)) (10 ^ fp.length))
      | _, _ => none

/-- Model of Python `float(s)` on decimal literals: optional minus sign,
then digits with at most one decimal point; anything else fails
(`ValueError`). -/
def float_of_string (s : String) : Option ℚ :=
  match s.data with
  | '-' :: cs => (float_of_chars cs).map Rat.neg
  | cs => float_of_chars cs

/-- `row_to_probe_coverage(row)`: repack a parsed TSV row (a list of string
fields) into a `ProbeInfo` and a coverage value.  Takes `row[:5]`; the label
is built from the raw strings, coordinates go through `int()`, coverage
through `float()`.  `none` models the `ValueError`/unpacking failures. -/
def row_to_probe_coverage (row : List String) : Option (ProbeInfo × ℚ) :=
  match row with
  | chrom :: s :: e :: gene :: cov :: _ =>
    match int_of_string s, int_of_string e, float_of_string cov with
    | some si, some ei, some cv =>
      some ({ label := chrom ++ ":" ++ s ++ "-" ++ e ++ ":" ++ gene
              chrom := chrom, start := si, end_ := ei, gene := gene }, cv)
    | _, _, _ => none
  | _ => none

/-- Modelled from the spec: `core.check_unique` (module `cnvlib/core.py` is
not under src/).  Per the spec, it must "verify every ProbeInfo in the tuple
has an identical `label`; if not, fail with a validation error identifying
the mismatched field ('probe Name')", returning the shared probe info. -/
def check_unique (items : List ProbeInfo) (title : String) :
    Except String ProbeInfo :=
  match items with
  | [] => Except.error ("Inconsistent " ++ title)
  | p :: ps =>
    if ps.all (fun q => q.label == p.label) then Except.ok p
    else Except.error ("Inconsistent " ++ title)

/-- `merge_rows(rows)`: parse each row, check the probe infos agree, and
return `[probe_info] + list(coverages)` (modelled as a pair). -/
def merge_rows (rows : List (List String)) : Except String (ProbeInfo × List ℚ) :=
  match rows.mapM row_to_probe_coverage with
  | none => Except.error "ValueError: could not parse row"
  | some pcs =>
    match check_unique (pcs.map Prod.fst) "probe Name" with
    | Except.error e => Except.error e
    | Except.ok pi => Except.ok (pi, pcs.map Prod.snd)

/-- One field of a SEG output row (the rows are heterogeneous tuples). -/
inductive SegField where
  | str (s : String) : SegField
  | int (i : ℤ) : SegField
  | rat (q : ℚ) : SegField

deriving instance DecidableEq for SegField

/-- One sample's segment array as read by `export_seg`: its `sample_id`, its
rows, and whether the array carries a `probes` column (`'probes' in segments`). -/
structure SampleArr where
  sample_id : String
  rows : List SegRow
  hasProbes : Bool

deriving instance DecidableEq for SampleArr

/-- Loop body of `create_chrom_ids`: extend the insertion-ordered mapping
with each not-yet-seen chromosome name, ids starting at 1. -/
def create_chrom_ids_go (acc : List (String × ℕ)) : List String → List (String × ℕ)
  | [] => acc
  | c :: cs =>
    if (acc.map Prod.fst).contains c then create_chrom_ids_go acc cs
    else create_chrom_ids_go (acc ++ [(c, acc.length + 1)]) cs

/-- `create_chrom_ids(segments)`: map chromosome names to 1-based integers in
the order encountered (an insertion-ordered association list models the
`OrderedDict`). -/
def create_chrom_ids (segments : SampleArr) : List (String × ℕ) :=
  create_chrom_ids_go [] (segments.rows.map SegRow.chromosome)

/-- The key list of a sample's chromosome-id mapping. -/
def chromNames (segments : SampleArr) : List String :=
  (create_chrom_ids segments).map Prod.fst

/-- Modelled from the spec: `core.assert_equal` (module `cnvlib/core.py` is
not under src/) applied to the two mappings' key views.  Per the spec, "every
subsequent sample's chromosome name *set* must equal the first's or the run
fails ... only set equality is enforced". -/
def sameKeySet (a b : List String) : Bool :=
  a.all (fun x => b.contains x) && b.all (fun x => a.contains x)

/-- The `row2out` tuple of `export_seg`: with the probes column when
present, without it otherwise. -/
def seg_out_fields (sid : String) (cid : ℕ) (hasP : Bool) (r : SegRow) :
    List SegField :=
  if hasP then
    [SegField.str sid, SegField.int (cid : ℤ), SegField.int r.start,
     SegField.int r.end_, SegField.int (r.probes : ℤ), SegField.rat r.log2]
  else
    [SegField.str sid, SegField.int (cid : ℤ), SegField.int r.start,
     SegField.int r.end_, SegField.rat r.log2]

/-- `outrows.extend(row2out(row) for row in segments)` for one sample;
a chromosome missing from the shared mapping is a `KeyError`. -/
def sample_outrows (chrom_ids : List (String × ℕ)) (sid : String) (hasP : Bool) :
    List SegRow → Except String (List (List SegField))
  | [] => Except.ok []
  | r :: rs =>
    match List.lookup r.chromosome chrom_ids with
    | none => Except.error ("KeyError: " ++ r.chromosome)
    | some cid =>
      match sample_outrows chrom_ids sid hasP rs with
      | Except.error e => Except.error e
      | Except.ok outs => Except.ok (seg_out_fields sid cid hasP r :: outs)

/-- The `outheader` assigned while processing one sample. -/
def segHeader (hasP : Bool) : List String :=
  if hasP then ["ID", "Chromosome", "Start", "End", "NumProbes", "Mean"]
  else ["ID", "Chromosome", "Start", "End", "Mean"]

/-- Processing of the samples after the first in `export_seg`: verify the
chromosome key set against the first sample's mapping, convert rows with the
first sample's mapping, and keep overwriting `outheader`. -/
def export_seg_go (chrom_ids : List (String × ℕ)) :
    List SampleArr → List String → List (List SegField) →
    Except String (List String × List (List SegField))
  | [], hdr, acc => Except.ok (hdr, acc)
  | s :: ss, _, acc =>
    if sameKeySet (chrom_ids.map Prod.fst) (chromNames s) then
      match sample_outrows chrom_ids s.sample_id s.hasProbes s.rows with
      | Except.error e => Except.error e
      | Except.ok rs => export_seg_go chrom_ids ss (segHeader s.hasProbes) (acc ++ rs)
    else Except.error "Segment chromosome names differ"

/-- `export_seg(sample_fnames)`: the chromosome-id mapping is built from the
first sample and reused for every sample's rows; each later sample's key set
is verified against it; the returned header is whichever `outheader` was
assigned last.  With no samples at all, `outheader` is never assigned and the
final `return` raises `NameError`. -/
def export_seg : List SampleArr → Except String (List String × List (List SegField))
  | [] => Except.error "NameError: outheader"
  | first :: rest =>
    match sample_outrows (create_chrom_ids first) first.sample_id
        first.hasProbes first.rows with
    | Except.error e => Except.error e
    | Except.ok rs =>
      export_seg_go (create_chrom_ids first) rest (segHeader first.hasProbes) rs

/-- The header value returned by `export_seg` after folding over the
remaining samples: the last sample's header (the accumulator if none). -/
def lastHeaderAux : List SampleArr → List String → List String
  | [], hdr => hdr
  | s :: ss, _ => lastHeaderAux ss (segHeader s.hasProbes)

/-- The encoders named by the `EXPORT_FORMATS` dispatch dict (their
signatures are heterogeneous, so the dispatch value is modelled as a tag). -/
inductive EncoderTag where
  | cdt : EncoderTag
  | jtv : EncoderTag
  | nexusBasic : EncoderTag
  | seg : EncoderTag
  | theta : EncoderTag
  | vcf : EncoderTag

deriving instance DecidableEq for EncoderTag

/-- Result type of the `fmt_*` table formatters: either a `(header, rows)`
pair or the `NotImplemented` constant that the stubs return. -/
inductive FmtResult where
  | result (header : List String) (rows : List (List String)) : FmtResult
  | notImplemented : FmtResult

deriving instance DecidableEq for FmtResult

/-- `fmt_gct`: a declared stub that returns `NotImplemented`. -/
def fmt_gct (_sample_ids : List String) (_rows : List (ProbeInfo × List ℚ)) :
    FmtResult :=
  FmtResult.notImplemented

/-- `fmt_multi` (multi-sample Nexus): a declared stub that returns
`NotImplemented`. -/
def fmt_multi (_sample_ids : List String) (_rows : List (ProbeInfo × List ℚ)) :
    FmtResult :=
  FmtResult.notImplemented

/-- The `EXPORT_FORMATS` dict.  The `'gct'` and `'nexus-multi1'` entries are
commented out in the source, so they are absent here. -/
def EXPORT_FORMATS : List (String × EncoderTag) :=
  [("cdt", EncoderTag.cdt),
   ("jtv", EncoderTag.jtv),
   ("nexus-basic", EncoderTag.nexusBasic),
   ("seg", EncoderTag.seg),
   ("theta", EncoderTag.theta),
   ("vcf", EncoderTag.vcf)]

/-- Dispatch on a format name: `EXPORT_FORMATS[name]`, a `KeyError` when the
name is not a key.  This happens before any encoder runs, hence before any
output row is produced. -/
def select_format (name : String) : Except String EncoderTag :=
  match List.lookup name EXPORT_FORMATS with
  | some tag => Except.ok tag
  | none => Except.error ("KeyError: " ++ name)

/-- Observable resource events of one run of the `merge_samples` generator:
handle `i` is the file handle opened for the `i`-th filename. -/
inductive MEvent where
  | opened (i : ℕ) : MEvent
  | closed (i : ℕ) : MEvent

deriving instance DecidableEq for MEvent

/-- `zip(*datastreams)`: the list of positional row-tuples, truncated at the
shortest stream. -/
def zipStreamsGo : ℕ → List (List (List String)) → List (List (List String))
  | 0, _ => []
  | n + 1, ss => ss.filterMap List.head? :: zipStreamsGo n (ss.map List.tail)

/-- Length of the shortest stream (`zip` truncation; 0 tuples when there are
no streams, matching `zip()` with no arguments). -/
def streamsMinLen : List (List (List String)) → ℕ
  | [] => 0
  | s :: ss => ss.foldl (fun m t => min m t.length) s.length

/-- The positional row-tuples consumed by the `merge_samples` loop. -/
def zipStreams (ss : List (List (List String))) : List (List (List String)) :=
  zipStreamsGo (streamsMinLen ss) ss

/-- The `for rows in zip(*datastreams): yield merge_rows(rows)` loop, seen
through its resource events.  One consumer pull is spent per yielded tuple;
a failing `merge_rows` propagates the exception out of the generator (no
further events); only the pull that runs off the end of the loop reaches the
`handle.close()` cleanup loop. -/
def mergeLoop (n : ℕ) : List (List (List String)) → ℕ → List MEvent
  | _, 0 => []
  | [], _ + 1 => (List.range n).map MEvent.closed
  | t :: ts, p + 1 =>
    match merge_rows t with
    | Except.error _ => []
    | Except.ok _ => mergeLoop n ts p

/-- Resource-event trace of `merge_samples(filenames)` when the consumer
performs `pulls` `next()` calls before abandoning the lazy sequence.  The
generator body does not start (nothing is opened) before the first pull; the
body first opens every file, then yields merged rows one pull at a time; the
cleanup loop closing the handles runs only when a pull runs the loop to its
end.  A consumer that iterates to normal completion performs
`(zipStreams streams).length + 1` pulls or more; a smaller count models
abandoning the generator early. -/
def merge_samples_trace (streams : List (List (List String))) (pulls : ℕ) :
    List MEvent :=
  match pulls with
  | 0 => []
  | p + 1 =>
    (List.range streams.length).map MEvent.opened ++
      mergeLoop streams.length (zipStreams streams) (p + 1)

/-- Whether an `Except` value is a success. -/
def exceptIsOk {ε α : Type} : Except ε α → Bool
  | Except.ok _ => true
  | Except.error _ => false

theorem pyround_floor_formula (q : ℚ) :
    ((2 * q.num + (q.den : ℤ)) / (2 * (q.den : ℤ)) : ℤ) = ⌊q + 1 / 2⌋ := by
  have hd : ((q.den : ℚ)) ≠ 0 := by
    exact_mod_cast q.den_ne_zero
  have key : q + 1 / 2 =
      (((2 * q.num + (q.den : ℤ)) : ℤ) : ℚ) / (((2 * q.den : ℕ)) : ℚ) := by
    nth_rewrite 1 [← Rat.num_div_den q]
    push_cast
    field_simp
    ring
  rw [key, Rat.floor_intCast_div_natCast]
  push_cast
  rfl

theorem pyround_eq (q : ℚ) :
    pyround q = if 0 ≤ q then ⌊q + 1 / 2⌋ else ⌈q - 1 / 2⌉ := by
  unfold pyround
  by_cases h : 0 ≤ q
  · rw [if_pos (Rat.num_nonneg.mpr h), if_pos h, pyround_floor_formula q]
  · rw [if_neg (fun hn => h (Rat.num_nonneg.mp hn)), if_neg h]
    have hrec := pyround_floor_formula (-q)
    rw [Rat.neg_num, Rat.neg_den] at hrec
    rw [hrec]
    have hceil : ⌈q - 1 / 2⌉ = -⌊-(q - 1 / 2)⌋ := by
      rw [Int.floor_neg, neg_neg]
    rw [hceil]
    congr 1
    congr 1
    ring

/-- Round-half-away-from-zero is monotone. -/
theorem pyround_mono {x y : ℚ} (h : x ≤ y) : pyround x ≤ pyround y := by
  rw [pyround_eq, pyround_eq]
  by_cases hx : 0 ≤ x
  · rw [if_pos hx, if_pos (le_trans hx h)]
    exact Int.floor_le_floor (by linarith)
  · rw [if_neg hx]
    by_cases hy : 0 ≤ y
    · rw [if_pos hy]
      calc ⌈x - 1 / 2⌉ ≤ ⌈(0 : ℚ)⌉ := Int.ceil_le_ceil (by push_neg at hx; linarith)
        _ ≤ ⌊y + 1 / 2⌋ := by
            rw [Int.ceil_zero]
            exact Int.le_floor.mpr (by push_cast; linarith)
    · rw [if_neg hy]
      exact Int.ceil_le_ceil (by linarith)

theorem pyroundR_mono {x y : ℝ} (h : x ≤ y) : pyroundR x ≤ pyroundR y := by
  unfold pyroundR
  by_cases hx : 0 ≤ x
  · rw [if_pos hx, if_pos (le_trans hx h)]
    exact Int.floor_le_floor (by linarith)
  · rw [if_neg hx]
    by_cases hy : 0 ≤ y
    · rw [if_pos hy]
      calc ⌈x - 1 / 2⌉ ≤ ⌈(0 : ℝ)⌉ := Int.ceil_le_ceil (by push_neg at hx; linarith)
        _ ≤ ⌊y + 1 / 2⌋ := by
            rw [Int.ceil_zero]
            exact Int.le_floor.mpr (by push_cast; linarith)
    · rw [if_neg hy]
      exact Int.ceil_le_ceil (by linarith)

theorem logratio2count_eq (p : ℕ) (l : ℝ) :
    logratio2count p l = pyroundR (1000 * (p : ℝ) * (2 : ℝ) ^ l) := by
  unfold logratio2count
  dsimp only
  congr 1
  ring

theorem pyround_tie_nonneg (n : ℕ) : pyround ((n : ℚ) + 1 / 2) = (n : ℤ) + 1 := by
  rw [pyround_eq, if_pos (by positivity)]
  have key : (n : ℚ) + 1 / 2 + 1 / 2 = (((n : ℤ) + 1 : ℤ) : ℚ) := by
    push_cast
    ring
  rw [key, Int.floor_intCast]

theorem pyround_tie_neg (n : ℕ) :
    pyround (-((n : ℚ) + 1 / 2)) = -((n : ℤ) + 1) := by
  have hneg : ¬ (0 : ℚ) ≤ -((n : ℚ) + 1 / 2) := by
    push_neg
    have : (0 : ℚ) < (n : ℚ) + 1 / 2 := by positivity
    linarith
  rw [pyround_eq, if_neg hneg]
  have key : -((n : ℚ) + 1 / 2) - 1 / 2 = ((-((n : ℤ) + 1) : ℤ) : ℚ) := by
    push_cast
    ring
  rw [key, Int.ceil_intCast]

theorem pyround_dist_le_half (v : ℚ) : |v - (pyround v : ℚ)| ≤ 1 / 2 := by
  rw [pyround_eq]
  by_cases h : 0 ≤ v
  · rw [if_pos h]
    have h1 := Int.floor_le (v + 1 / 2)
    have h2 := Int.lt_floor_add_one (v + 1 / 2)
    rw [abs_le]
    constructor <;> linarith
  · rw [if_neg h]
    have h1 := Int.le_ceil (v - 1 / 2)
    have h2 := Int.ceil_lt_add_one (v - 1 / 2)
    rw [abs_le]
    constructor <;> linarith

theorem bed_single (row : SegRow) (v : ℚ) (label : String) (p : ℤ) (sn : Bool) :
    segments2bed [row] [v] label p sn =
      if sn = true ∨ ncopies_of v ≠ p then
        [(row.chromosome, row.start, row.end_, label, ncopies_of v)]
      else [] := by
  by_cases hc : sn = true ∨ ncopies_of v ≠ p
  · rw [if_pos hc]
    simp [segments2bed, hc]
  · rw [if_neg hc]
    push_neg at hc
    obtain ⟨h1, h2⟩ := hc
    have h1f : sn = false := by
      cases sn <;> simp_all
    simp [segments2bed, h2, h1f]

theorem vcf_single_empty_iff (row : SegRow) (v : ℚ) (p : ℤ) :
    segments2vcf [row] [v] p = [] ↔ ncopies_of v = p := by
  by_cases h : ncopies_of v = p
  · simp [segments2vcf, vcfRecordOf, h]
  · by_cases h2 : p < ncopies_of v
    · simp [segments2vcf, vcfRecordOf, h, h2]
    · simp [segments2vcf, vcfRecordOf, h, h2]

/-- Claim C1: for a segment with resolved absolute copy number `v` and
positive ploidy `p`, `segments2vcf` emits no record when `round v = p`;
when `round v ≠ p` it emits exactly one record: a DUP record (when
`round v > p`) with `SVLEN = end - start`, FORMAT `GT:GQ:CN:CNQ` and
genotype `0/1:0:{ncopies}:{probes}`, or a DEL record (when `round v < p`)
with `SVLEN = -(end - start)`, FORMAT `GT:GQ` and genotype `1/1:{probes}`
when `round v = 0`, else `0/1:{probes}`. -/
theorem c1_vcf_classification (row : SegRow) (v : ℚ) (p : ℤ) (hp : 0 < p) :
    (ncopies_of v = p → segments2vcf [row] [v] p = [])
    ∧ (p < ncopies_of v → segments2vcf [row] [v] p =
        [{ chromosome := row.chromosome, pos := max 1 row.start, svtype := "DUP",
           info := vcf_info "DUP" row.end_ (row.end_ - row.start),
           formats := "GT:GQ:CN:CNQ",
           genotype := "0/1:0:" ++ toString (ncopies_of v) ++ ":" ++
             toString row.probes }])
    ∧ (ncopies_of v < p → segments2vcf [row] [v] p =
        [{ chromosome := row.chromosome, pos := max 1 row.start, svtype := "DEL",
           info := vcf_info "DEL" row.end_ (-(row.end_ - row.start)),
           formats := "GT:GQ",
           genotype := (if ncopies_of v = 0 then "1/1" else "0/1") ++ ":" ++
             toString row.probes }]) := by
  refine ⟨fun h => ?_, fun h => ?_, fun h => ?_⟩
  · simp [segments2vcf, vcfRecordOf, h]
  · simp [segments2vcf, vcfRecordOf, h, h.ne']
  · simp [segments2vcf, vcfRecordOf, h.ne, not_lt.mpr h.le]

/-- Witness for C1 at a concrete single-copy deletion. -/
theorem c1_vcf_classification_witness :
    segments2vcf [⟨"chr1", 0, 100, 5, 0⟩] [1] 2 =
      [{ chromosome := "chr1", pos := max 1 0, svtype := "DEL",
         info := vcf_info "DEL" 100 (-(100 - 0)),
         formats := "GT:GQ",
         genotype := (if ncopies_of 1 = 0 then "1/1" else "0/1") ++ ":" ++
           toString (5 : ℕ) }] :=
  (c1_vcf_classification ⟨"chr1", 0, 100, 5, 0⟩ 1 2 (by decide)).2.2 (by decide)

/-- Claim C2: both the BED and the VCF encoder compute `ncopies` from the
resolved absolute value by rounding to the nearest integer with ties away
from zero (not round-half-to-even): ties at `n + 1/2` go up for non-negative
values and down for negative ones, `5/2 ↦ 3`, `3/2 ↦ 2`, every value is
within `1/2` of its rounding, and `ncopies_of` is exactly the value used by
`segments2bed` rows and by the `segments2vcf` skip test. -/
theorem c2_round_half_away_from_zero :
    (∀ n : ℕ, ncopies_of ((n : ℚ) + 1 / 2) = (n : ℤ) + 1)
    ∧ (∀ n : ℕ, ncopies_of (-((n : ℚ) + 1 / 2)) = -((n : ℤ) + 1))
    ∧ ncopies_of (5 / 2) = 3
    ∧ ncopies_of (3 / 2) = 2
    ∧ (∀ v : ℚ, |v - (ncopies_of v : ℚ)| ≤ 1 / 2)
    ∧ (∀ (row : SegRow) (v : ℚ) (label : String) (p : ℤ),
        segments2bed [row] [v] label p true =
          [(row.chromosome, row.start, row.end_, label, ncopies_of v)])
    ∧ (∀ (row : SegRow) (v : ℚ) (p : ℤ),
        segments2vcf [row] [v] p = [] ↔ ncopies_of v = p) := by
  refine ⟨pyround_tie_nonneg, pyround_tie_neg, ?_, ?_, pyround_dist_le_half,
    fun row v label p => ?_, vcf_single_empty_iff⟩
  · have h := pyround_tie_nonneg 2
    norm_num at h
    exact h
  · have h := pyround_tie_nonneg 1
    norm_num at h
    exact h
  · rw [bed_single]
    simp

/-- Witness for C2: the tie at `2 + 1/2` rounds up to `3`. -/
theorem c2_round_half_away_from_zero_witness :
    ncopies_of ((2 : ℕ) + 1 / 2 : ℚ) = ((2 : ℕ) : ℤ) + 1 :=
  c2_round_half_away_from_zero.1 2

/-- Claim C3: the THetA `logratio2count` computes
`round(segment_size * (2 ** log2 * 100) / 100) = round(1000 * probes * 2 ** log2)`;
at `log2 = 0` that is `round(1000 * probes)`, and for fixed `probes` the
count is monotonically non-decreasing in `log2`. -/
theorem c3_theta_logratio2count :
    (∀ (p : ℕ) (l : ℝ),
      logratio2count p l = pyroundR (1000 * (p : ℝ) * (2 : ℝ) ^ l))
    ∧ (∀ p : ℕ, logratio2count p 0 = pyroundR (1000 * (p : ℝ)))
    ∧ (∀ (p : ℕ) (la lb : ℝ), la ≤ lb →
        logratio2count p la ≤ logratio2count p lb) := by
  refine ⟨logratio2count_eq, fun p => ?_, fun p la lb h => ?_⟩
  · rw [logratio2count_eq, Real.rpow_zero, mul_one]
  · rw [logratio2count_eq, logratio2count_eq]
    apply pyroundR_mono
    apply mul_le_mul_of_nonneg_left _ (by positivity)
    exact (Real.rpow_le_rpow_left_iff one_lt_two).mpr h

/-- Witness for C3: monotonicity applied at `log2 = 0 ≤ 1`, `probes = 5`. -/
theorem c3_theta_logratio2count_witness :
    logratio2count 5 0 ≤ logratio2count 5 1 :=
  c3_theta_logratio2count.2.2 5 0 1 zero_le_one

/-- Claim C6: every record emitted by `segments2vcf` has
`POS = max(1, start)` of its source segment, hence `POS ≥ 1` even when the
0-based start coordinate is 0 or negative. -/
theorem c6_vcf_pos (segments : List SegRow) (absolutes : List ℚ) (ploidy : ℤ)
    (rec : VcfRecord) (h : rec ∈ segments2vcf segments absolutes ploidy) :
    1 ≤ rec.pos ∧ ∃ row ∈ segments, rec.pos = max 1 row.start := by
  obtain ⟨pair, hmem, heq⟩ := List.mem_filterMap.mp h
  obtain ⟨row, v⟩ := pair
  have hrow : row ∈ segments := (List.of_mem_zip hmem).1
  have hpos : rec.pos = max 1 row.start := by
    unfold vcfRecordOf at heq
    dsimp only at heq
    by_cases h1 : ncopies_of v = ploidy
    · rw [if_pos h1] at heq
      exact absurd heq (by simp)
    · rw [if_neg h1] at heq
      by_cases h2 : ploidy < ncopies_of v
      · rw [if_pos h2] at heq
        rw [← Option.some.inj heq]
      · rw [if_neg h2] at heq
        rw [← Option.some.inj heq]
  exact ⟨hpos ▸ le_max_left 1 row.start, row, hrow, hpos⟩

/-- Witness for C6 at a segment with negative start coordinate. -/
theorem c6_vcf_pos_witness :
    1 ≤ (VcfRecord.mk "chr1" 1 "DEL" "IMPRECISE;SVTYPE=DEL;END=100;SVLEN=-105"
          "GT:GQ" "0/1:3").pos ∧
    ∃ row ∈ [SegRow.mk "chr1" (-5) 100 3 0],
      (VcfRecord.mk "chr1" 1 "DEL" "IMPRECISE;SVTYPE=DEL;END=100;SVLEN=-105"
        "GT:GQ" "0/1:3").pos = max 1 row.start :=
  c6_vcf_pos [SegRow.mk "chr1" (-5) 100 3 0] [1] 2
    (VcfRecord.mk "chr1" 1 "DEL" "IMPRECISE;SVTYPE=DEL;END=100;SVLEN=-105"
      "GT:GQ" "0/1:3") (by decide)

/-- Claim C8: `segments2bed` emits the row
`(chromosome, start, end, label, round v)` for a segment iff `show_neutral`
is true or `round v ≠ ploidy`; otherwise the row is suppressed. -/
theorem c8_bed_neutral_suppression (row : SegRow) (v : ℚ) (label : String)
    (p : ℤ) (sn : Bool) :
    segments2bed [row] [v] label p sn =
      if sn = true ∨ ncopies_of v ≠ p then
        [(row.chromosome, row.start, row.end_, label, ncopies_of v)]
      else [] :=
  bed_single row v label p sn

/-- Witness for C8: a neutral segment with `show_neutral = false`. -/
theorem c8_bed_neutral_suppression_witness :
    segments2bed [⟨"chr1", 0, 100, 5, 0⟩] [2] "s1" 2 false =
      (if false = true ∨ ncopies_of 2 ≠ 2 then
        [("chr1", (0 : ℤ), (100 : ℤ), "s1", ncopies_of 2)]
      else []) :=
  c8_bed_neutral_suppression ⟨"chr1", 0, 100, 5, 0⟩ 2 "s1" 2 false

/-- Claim C9: the unimplemented formats `gct` and `nexus-multi1` are not
keys of the dispatch table, so selecting them fails with a key error before
any encoder runs, and the declared stubs `fmt_gct` / `fmt_multi` return the
`NotImplemented` sentinel, never a usable `(header, rows)` result. -/
theorem c9_unimplemented_formats :
    select_format "gct" = Except.error "KeyError: gct"
    ∧ select_format "nexus-multi1" = Except.error "KeyError: nexus-multi1"
    ∧ (∀ (ids : List String) (rows : List (ProbeInfo × List ℚ)),
        fmt_gct ids rows = FmtResult.notImplemented)
    ∧ (∀ (ids : List String) (rows : List (ProbeInfo × List ℚ)),
        fmt_multi ids rows = FmtResult.notImplemented) :=
  ⟨rfl, rfl, fun _ _ => rfl, fun _ _ => rfl⟩

/-- Witness for C9: the `gct` lookup failure. -/
theorem c9_unimplemented_formats_witness :
    select_format "gct" = Except.error "KeyError: gct" :=
  c9_unimplemented_formats.1

/-- Claim C4: `merge_rows` fails with the validation error naming
"probe Name" iff at least two of the parsed rows' derived labels
`"{chrom}:{start}-{end}:{gene}"` differ, and when all labels agree it
returns the shared probe info followed by the coverage values in input
(stream) order. -/
theorem c4_merge_rows_label_check (rows : List (List String))
    (q : ProbeInfo × ℚ) (qs : List (ProbeInfo × ℚ))
    (hp : rows.mapM row_to_probe_coverage = some (q :: qs)) :
    (merge_rows rows = Except.error "Inconsistent probe Name" ↔
      ∃ r ∈ qs, r.1.label ≠ q.1.label)
    ∧ ((∀ r ∈ qs, r.1.label = q.1.label) →
        merge_rows rows = Except.ok (q.1, (q :: qs).map Prod.snd)) := by
  unfold merge_rows
  rw [hp]
  simp only [List.map_cons]
  simp only [check_unique]
  by_cases hall : (qs.map Prod.fst).all (fun r => r.label == q.1.label) = true
  · rw [if_pos hall]
    constructor
    · constructor
      · intro hcontra
        exact absurd hcontra (by simp)
      · rintro ⟨r, hr, hne⟩
        have hbeq := List.all_eq_true.mp hall r.1 (List.mem_map_of_mem Prod.fst hr)
        exact absurd (beq_iff_eq.mp hbeq) hne
    · intro _
      rfl
  · rw [if_neg hall]
    constructor
    · constructor
      · intro _
        rw [List.all_eq_true] at hall
        push_neg at hall
        obtain ⟨x, hx, hxne⟩ := hall
        obtain ⟨r, hr, rfl⟩ := List.mem_map.mp hx
        exact ⟨r, hr, fun hlab => hxne (beq_iff_eq.mpr hlab)⟩
      · intro _
        rfl
    · intro hlabels
      exact absurd (List.all_eq_true.mpr (fun x hx => by
        obtain ⟨r, hr, rfl⟩ := List.mem_map.mp hx
        exact beq_iff_eq.mpr (hlabels r hr))) hall

/-- Witness for C4: two aligned rows of the same probe merge into the shared
probe info with both coverages, in stream order. -/
theorem c4_merge_rows_label_check_witness :
    merge_rows [["chr1", "1", "101", "geneA", "1"],
                ["chr1", "1", "101", "geneA", "2"]] =
      Except.ok ({ label := "chr1:1-101:geneA", chrom := "chr1", start := 1,
                   end_ := 101, gene := "geneA" }, [(1 : ℚ), 2]) :=
  (c4_merge_rows_label_check
    [["chr1", "1", "101", "geneA", "1"], ["chr1", "1", "101", "geneA", "2"]]
    ({ label := "chr1:1-101:geneA", chrom := "chr1", start := 1,
       end_ := 101, gene := "geneA" }, (1 : ℚ))
    [({ label := "chr1:1-101:geneA", chrom := "chr1", start := 1,
        end_ := 101, gene := "geneA" }, (2 : ℚ))]
    (by decide)).2 (by decide)

theorem create_go_keys_mono (cs : List String) :
    ∀ (acc : List (String × ℕ)) (c : String), c ∈ acc.map Prod.fst →
      c ∈ (create_chrom_ids_go acc cs).map Prod.fst := by
  induction cs with
  | nil => intro acc c h; simpa [create_chrom_ids_go] using h
  | cons c' cs ih =>
    intro acc c h
    rw [create_chrom_ids_go]
    by_cases hc : (acc.map Prod.fst).contains c'
    · rw [if_pos hc]
      exact ih acc c h
    · rw [if_neg hc]
      exact ih _ c (by simp [h])

theorem create_go_keys_mem (cs : List String) :
    ∀ (acc : List (String × ℕ)) (c : String), c ∈ cs →
      c ∈ (create_chrom_ids_go acc cs).map Prod.fst := by
  induction cs with
  | nil => intro acc c h; exact absurd h (List.not_mem_nil c)
  | cons c' cs ih =>
    intro acc c h
    rw [create_chrom_ids_go]
    rcases List.mem_cons.mp h with rfl | htail
    · by_cases hc : (acc.map Prod.fst).contains c
      · rw [if_pos hc]
        exact create_go_keys_mono cs acc c (by simpa using hc)
      · rw [if_neg hc]
        exact create_go_keys_mono cs _ c (by simp)
    · by_cases hc : (acc.map Prod.fst).contains c'
      · rw [if_pos hc]
        exact ih acc c htail
      · rw [if_neg hc]
        exact ih _ c htail

theorem chrom_mem_chromNames (s : SampleArr) (r : SegRow) (h : r ∈ s.rows) :
    r.chromosome ∈ chromNames s :=
  create_go_keys_mem _ [] _ (List.mem_map_of_mem SegRow.chromosome h)

theorem lookup_isSome_of_mem {l : List (String × ℕ)} {c : String}
    (h : c ∈ l.map Prod.fst) : ∃ v, List.lookup c l = some v := by
  induction l with
  | nil => exact absurd h (by simp)
  | cons kv l ih =>
    by_cases hc : c = kv.1
    · exact ⟨kv.2, by simp [List.lookup, hc]⟩
    · have htail : c ∈ l.map Prod.fst := by
        rcases List.mem_cons.mp h with heq | ht
        · exact absurd heq hc
        · exact ht
      obtain ⟨v, hv⟩ := ih htail
      exact ⟨v, by simp [List.lookup, beq_eq_false_iff_ne.mpr hc, hv]⟩

theorem sameKeySet_iff_toFinset (a b : List String) :
    sameKeySet a b = true ↔ a.toFinset = b.toFinset := by
  simp only [sameKeySet, Bool.and_eq_true, List.all_eq_true, Finset.ext_iff,
    List.mem_toFinset]
  constructor
  · rintro ⟨h1, h2⟩ x
    constructor
    · intro hx
      simpa using h1 x hx
    · intro hx
      simpa using h2 x hx
  · intro h
    constructor
    · intro x hx
      simpa using (h x).mp hx
    · intro x hx
      simpa using (h x).mpr hx

theorem seg_out_fields_length (sid : String) (cid : ℕ) (hasP : Bool) (r : SegRow) :
    (seg_out_fields sid cid hasP r).length = if hasP then 6 else 5 := by
  cases hasP <;> simp [seg_out_fields]

theorem sample_outrows_ok (chrom_ids : List (String × ℕ)) (sid : String)
    (hasP : Bool) (rows : List SegRow)
    (h : ∀ r ∈ rows, r.chromosome ∈ chrom_ids.map Prod.fst) :
    ∃ outs, sample_outrows chrom_ids sid hasP rows = Except.ok outs ∧
      ∀ o ∈ outs, o.length = if hasP then 6 else 5 := by
  induction rows with
  | nil => exact ⟨[], rfl, by simp⟩
  | cons r rs ih =>
    obtain ⟨v, hv⟩ := lookup_isSome_of_mem (h r (by simp))
    obtain ⟨outs, houts, hlen⟩ := ih (fun r' hr' => h r' (by simp [hr']))
    refine ⟨seg_out_fields sid v hasP r :: outs, ?_, ?_⟩
    · rw [sample_outrows, hv, houts]
    · intro o ho
      rcases List.mem_cons.mp ho with rfl | ho'
      · exact seg_out_fields_length sid v hasP r
      · exact hlen o ho'

theorem mem_of_sameKeySet {a b : List String} (h : sameKeySet a b = true)
    {x : String} (hx : x ∈ b) : x ∈ a := by
  have hf := (sameKeySet_iff_toFinset a b).mp h
  have hxb : x ∈ b.toFinset := List.mem_toFinset.mpr hx
  rw [← hf] at hxb
  exact List.mem_toFinset.mp hxb

theorem export_seg_go_error_iff (cids : List (String × ℕ)) (ss : List SampleArr) :
    ∀ (hdr : List String) (acc : List (List SegField)),
    (∃ e, export_seg_go cids ss hdr acc = Except.error e) ↔
      ∃ s ∈ ss, sameKeySet (cids.map Prod.fst) (chromNames s) = false := by
  induction ss with
  | nil =>
    intro hdr acc
    simp [export_seg_go]
  | cons s ss ih =>
    intro hdr acc
    by_cases hk : sameKeySet (cids.map Prod.fst) (chromNames s) = true
    · have hsub : ∀ r ∈ s.rows, r.chromosome ∈ cids.map Prod.fst := by
        intro r hr
        exact mem_of_sameKeySet hk (chrom_mem_chromNames s r hr)
      obtain ⟨outs, houts, _⟩ :=
        sample_outrows_ok cids s.sample_id s.hasProbes s.rows hsub
      rw [export_seg_go]
      rw [if_pos hk, houts]
      rw [ih (segHeader s.hasProbes) (acc ++ outs)]
      constructor
      · rintro ⟨s', hs', hfalse⟩
        exact ⟨s', by simp [hs'], hfalse⟩
      · rintro ⟨s', hs', hfalse⟩
        rcases List.mem_cons.mp hs' with rfl | htail
        · exact absurd hk (by simp [hfalse])
        · exact ⟨s', htail, hfalse⟩
    · have hkf : sameKeySet (cids.map Prod.fst) (chromNames s) = false := by
        cases hb : sameKeySet (cids.map Prod.fst) (chromNames s)
        · rfl
        · exact absurd hb hk
      rw [export_seg_go]
      rw [if_neg (by simp [hkf])]
      exact ⟨fun _ => ⟨s, by simp, hkf⟩, fun _ => ⟨"Segment chromosome names differ", rfl⟩⟩

theorem export_seg_go_ok (cids : List (String × ℕ)) (ss : List SampleArr) :
    ∀ (hdr : List String) (acc : List (List SegField)),
    (∀ s ∈ ss, sameKeySet (cids.map Prod.fst) (chromNames s) = true) →
    ∃ rowss, export_seg_go cids ss hdr acc =
        Except.ok (lastHeaderAux ss hdr, acc ++ rowss.flatten)
      ∧ List.Forall₂ (fun (s : SampleArr) (rs : List (List SegField)) =>
          ∀ o ∈ rs, o.length = if s.hasProbes then 6 else 5) ss rowss := by
  induction ss with
  | nil =>
    intro hdr acc _
    exact ⟨[], by simp [export_seg_go, lastHeaderAux], List.Forall₂.nil⟩
  | cons s ss ih =>
    intro hdr acc h
    have hk := h s (by simp)
    have hsub : ∀ r ∈ s.rows, r.chromosome ∈ cids.map Prod.fst := by
      intro r hr
      exact mem_of_sameKeySet hk (chrom_mem_chromNames s r hr)
    obtain ⟨outs, houts, hlen⟩ :=
      sample_outrows_ok cids s.sample_id s.hasProbes s.rows hsub
    obtain ⟨rowss, hgo, hf⟩ :=
      ih (segHeader s.hasProbes) (acc ++ outs) (fun s' hs' => h s' (by simp [hs']))
    refine ⟨outs :: rowss, ?_, List.Forall₂.cons hlen hf⟩
    rw [export_seg_go, if_pos hk, houts]
    dsimp only
    rw [hgo, lastHeaderAux]
    simp [List.append_assoc]

/-- Claim C5: SEG export over `first :: rest` fails iff some later sample's
chromosome-name set differs from the first sample's; equal sets in a
different first-seen order pass the validation (the error condition depends
only on the sets). -/
theorem c5_seg_chromosome_set_validation (first : SampleArr)
    (rest : List SampleArr) :
    (∃ e, export_seg (first :: rest) = Except.error e) ↔
      ∃ s ∈ rest, (chromNames s).toFinset ≠ (chromNames first).toFinset := by
  obtain ⟨rs, hrs, _⟩ := sample_outrows_ok (create_chrom_ids first)
    first.sample_id first.hasProbes first.rows
    (fun r hr => chrom_mem_chromNames first r hr)
  have hred : export_seg (first :: rest) =
      export_seg_go (create_chrom_ids first) rest (segHeader first.hasProbes) rs := by
    rw [export_seg, hrs]
  rw [hred, export_seg_go_error_iff]
  constructor
  · rintro ⟨s, hs, hfalse⟩
    refine ⟨s, hs, fun heq => ?_⟩
    have htrue : sameKeySet ((create_chrom_ids first).map Prod.fst)
        (chromNames s) = true :=
      (sameKeySet_iff_toFinset _ _).mpr heq.symm
    rw [htrue] at hfalse
    exact absurd hfalse (by simp)
  · rintro ⟨s, hs, hne⟩
    refine ⟨s, hs, ?_⟩
    cases hb : sameKeySet ((create_chrom_ids first).map Prod.fst) (chromNames s)
    · rfl
    · exact absurd ((sameKeySet_iff_toFinset _ _).mp hb).symm hne

/-- Witness for C5: a second sample with a different chromosome set makes
the export fail. -/
theorem c5_seg_chromosome_set_validation_witness :
    ∃ e, export_seg [⟨"s1", [⟨"chrA", 0, 10, 2, 0⟩], false⟩,
                     ⟨"s2", [⟨"chrC", 0, 7, 1, 0⟩], false⟩] = Except.error e :=
  (c5_seg_chromosome_set_validation ⟨"s1", [⟨"chrA", 0, 10, 2, 0⟩], false⟩
    [⟨"s2", [⟨"chrC", 0, 7, 1, 0⟩], false⟩]).mpr
    ⟨⟨"s2", [⟨"chrC", 0, 7, 1, 0⟩], false⟩, by simp, by decide⟩

theorem lastHeaderAux_getLast (first : SampleArr) (rest : List SampleArr) :
    lastHeaderAux rest (segHeader first.hasProbes) =
      segHeader (((first :: rest).getLast (List.cons_ne_nil first rest)).hasProbes) := by
  induction rest generalizing first with
  | nil => rfl
  | cons s ss ih =>
    rw [lastHeaderAux, ih s]
    have hlast : (first :: s :: ss).getLast (List.cons_ne_nil first (s :: ss)) =
        (s :: ss).getLast (List.cons_ne_nil s ss) :=
      List.getLast_cons (List.cons_ne_nil s ss)
    rw [hlast]

/-- Claim C10: when the chromosome sets agree (so the export succeeds), the
returned header is computed solely from the last sample (`NumProbes` iff the
last sample carries `probes`), while each sample's own rows have 6 fields
iff that sample carries `probes` and 5 otherwise — so samples that differ in
`probes` yield rows the single header does not describe. -/
theorem c10_seg_header_from_last (first : SampleArr) (rest : List SampleArr)
    (hset : ∀ s ∈ rest, sameKeySet (chromNames first) (chromNames s) = true) :
    ∃ rowss : List (List (List SegField)),
      export_seg (first :: rest) =
        Except.ok (segHeader (((first :: rest).getLast
            (List.cons_ne_nil first rest)).hasProbes), rowss.flatten)
      ∧ List.Forall₂ (fun (s : SampleArr) (rs : List (List SegField)) =>
          ∀ o ∈ rs, o.length = if s.hasProbes then 6 else 5) (first :: rest) rowss := by
  obtain ⟨rs, hrs, hlen1⟩ := sample_outrows_ok (create_chrom_ids first)
    first.sample_id first.hasProbes first.rows
    (fun r hr => chrom_mem_chromNames first r hr)
  obtain ⟨rowss, hgo, hf⟩ := export_seg_go_ok (create_chrom_ids first) rest
    (segHeader first.hasProbes) rs hset
  refine ⟨rs :: rowss, ?_, List.Forall₂.cons hlen1 hf⟩
  rw [export_seg, hrs]
  dsimp only
  rw [hgo, lastHeaderAux_getLast first rest]
  simp

/-- Witness for C10: a probes-free first sample and a probes-carrying second
sample; the header comes from the second, the rows have widths 5 and 6. -/
theorem c10_seg_header_from_last_witness :
    ∃ rowss : List (List (List SegField)),
      export_seg [⟨"s1", [⟨"chr1", 0, 10, 2, 0⟩], false⟩,
                  ⟨"s2", [⟨"chr1", 5, 20, 3, mkRat 1 2⟩], true⟩] =
        Except.ok (segHeader ((([⟨"s1", [⟨"chr1", 0, 10, 2, 0⟩], false⟩,
            ⟨"s2", [⟨"chr1", 5, 20, 3, mkRat 1 2⟩], true⟩] :
              List SampleArr).getLast (List.cons_ne_nil _ _)).hasProbes),
          rowss.flatten)
      ∧ List.Forall₂ (fun (s : SampleArr) (rs : List (List SegField)) =>
          ∀ o ∈ rs, o.length = if s.hasProbes then 6 else 5)
        [⟨"s1", [⟨"chr1", 0, 10, 2, 0⟩], false⟩,
         ⟨"s2", [⟨"chr1", 5, 20, 3, mkRat 1 2⟩], true⟩] rowss :=
  c10_seg_header_from_last ⟨"s1", [⟨"chr1", 0, 10, 2, 0⟩], false⟩
    [⟨"s2", [⟨"chr1", 5, 20, 3, mkRat 1 2⟩], true⟩] (by decide)

theorem mergeLoop_closed_iff (n : ℕ) (ts : List (List (List String))) :
    ∀ (p : ℕ) (i : ℕ),
    MEvent.closed i ∈ mergeLoop n ts p ↔
      (i < n ∧ ts.length < p ∧ ∀ t ∈ ts, exceptIsOk (merge_rows t) = true) := by
  induction ts with
  | nil =>
    intro p i
    cases p with
    | zero => simp [mergeLoop]
    | succ p => simp [mergeLoop]
  | cons t ts ih =>
    intro p i
    cases p with
    | zero => simp [mergeLoop]
    | succ p =>
      rw [mergeLoop]
      cases hmt : merge_rows t with
      | error e =>
        simp only [List.not_mem_nil, false_iff]
        rintro ⟨-, -, hall⟩
        have := hall t (by simp)
        rw [hmt] at this
        exact absurd this (by simp [exceptIsOk])
      | ok pr =>
        rw [ih p i]
        constructor
        · rintro ⟨h1, h2, h3⟩
          refine ⟨h1, by simpa using Nat.succ_lt_succ h2, ?_⟩
          intro t' ht'
          rcases List.mem_cons.mp ht' with rfl | htail
          · rw [hmt]
            rfl
          · exact h3 t' htail
        · rintro ⟨h1, h2, h3⟩
          exact ⟨h1, by simpa using h2, fun t' ht' => h3 t' (by simp [ht'])⟩

/-- Amended claim C7 (proved): a handle is closed iff the consumer drives
the generator past the last merged row with every merge succeeding — i.e.
the handles opened by `merge_samples` are closed exactly on normal
completion of the iteration; abandoning the lazy sequence early or a
failing merge leaves every handle unclosed, because the cleanup loop after
the `for` loop is never reached. -/
theorem c7_merge_samples_close_iff (streams : List (List (List String)))
    (pulls : ℕ) (i : ℕ) :
    MEvent.closed i ∈ merge_samples_trace streams pulls ↔
      (i < streams.length ∧ (zipStreams streams).length < pulls ∧
        ∀ t ∈ zipStreams streams, exceptIsOk (merge_rows t) = true) := by
  cases pulls with
  | zero => simp [merge_samples_trace]
  | succ p =>
    rw [merge_samples_trace, List.mem_append]
    constructor
    · rintro (h | h)
      · exact absurd h (by simp)
      · exact (mergeLoop_closed_iff _ _ _ _).mp h
    · intro h
      exact Or.inr ((mergeLoop_closed_iff _ _ _ _).mpr h)

/-- Counterexample to claim C7 as stated: with two single-row input streams
whose probe labels differ, the merge fails on the first tuple and no handle
is ever closed (even though the consumer keeps pulling); likewise, with
matching labels but a consumer that abandons the sequence after one pull,
the handles stay open.  In both runs handle 0 was opened and never closed. -/
theorem c7_counterexample :
    (MEvent.opened 0 ∈ merge_samples_trace
        [[["chr1", "1", "101", "geneA", "1"]],
         [["chr1", "1", "101", "geneB", "1"]]] 5
      ∧ MEvent.closed 0 ∉ merge_samples_trace
        [[["chr1", "1", "101", "geneA", "1"]],
         [["chr1", "1", "101", "geneB", "1"]]] 5)
    ∧ (MEvent.opened 0 ∈ merge_samples_trace
        [[["chr1", "1", "101", "geneA", "1"]],
         [["chr1", "1", "101", "geneA", "1"]]] 1
      ∧ MEvent.closed 0 ∉ merge_samples_trace
        [[["chr1", "1", "101", "geneA", "1"]],
         [["chr1", "1", "101", "geneA", "1"]]] 1) := by
  decide

/-- Witness for the amended C7: full consumption of one merged row (two
pulls) closes handle 0. -/
theorem c7_merge_samples_close_iff_witness :
    MEvent.closed 0 ∈ merge_samples_trace
      [[["chr1", "1", "101", "geneA", "1"]],
       [["chr1", "1", "101", "geneA", "1"]]] 2 :=
  (c7_merge_samples_close_iff
    [[["chr1", "1", "101", "geneA", "1"]],
     [["chr1", "1", "101", "geneA", "1"]]] 2 0).mpr (by decide)
